import Mathlib

/- Verification development for the websurfx engine-adapter subsystem:
the Bing link de-obfuscation routine, the selector-driven result parser,
and the five engine adapters (Bing, Brave, DuckDuckGo, LibreX, Startpage).
Text that crosses the decoder is modelled at the byte level (a Rust str is
its UTF-8 bytes); adapter-level text is modelled at the character level. -/

namespace Websurfx

/-- ASCII byte values of a Lean string (used for ASCII-only concrete data). -/
def asciiBytes (s : String) : List Nat := s.data.map Char.toNat

/-- Value of a symbol of the standard base64 alphabet
(base64 crate, engine general_purpose STANDARD_NO_PAD): A-Z, a-z, 0-9, +, /.
Any other byte (including - and _ of the URL-safe alphabet and the pad =)
is rejected. -/
def b64val (c : Nat) : Option Nat :=
  if 65 ≤ c ∧ c ≤ 90 then some (c - 65)
  else if 97 ≤ c ∧ c ≤ 122 then some (c - 97 + 26)
  else if 48 ≤ c ∧ c ≤ 57 then some (c - 48 + 52)
  else if c = 43 then some 62
  else if c = 47 then some 63
  else none

/-- Symbol (byte value) of the standard base64 alphabet for a 6-bit value. -/
def b64char (n : Nat) : Nat :=
  if n < 26 then 65 + n
  else if n < 52 then 97 + (n - 26)
  else if n < 62 then 48 + (n - 52)
  else if n = 62 then 43
  else 47

/-- Unpadded base64 encoding over the standard alphabet. -/
def b64encode : List Nat → List Nat
  | [] => []
  | [a] => [b64char (a / 4), b64char (a % 4 * 16)]
  | [a, b] => [b64char (a / 4), b64char (a % 4 * 16 + b / 16), b64char (b % 16 * 4)]
  | a :: b :: c :: rest =>
    b64char (a / 4) :: b64char (a % 4 * 16 + b / 16) ::
      b64char (b % 16 * 4 + c / 64) :: b64char (c % 64) :: b64encode rest

/-- Unpadded base64 decoding over the standard alphabet, as performed by the
base64 crate STANDARD_NO_PAD engine: rejects any symbol outside the standard
alphabet, rejects an input whose length is congruent to 1 mod 4, and rejects
nonzero trailing bits in a final short chunk. -/
def b64decode : List Nat → Option (List Nat)
  | [] => some []
  | [_] => none
  | [w, x] =>
    match b64val w, b64val x with
    | some v1, some v2 => if v2 % 16 = 0 then some [v1 * 4 + v2 / 16] else none
    | _, _ => none
  | [w, x, y] =>
    match b64val w, b64val x, b64val y with
    | some v1, some v2, some v3 =>
      if v3 % 4 = 0 then some [v1 * 4 + v2 / 16, v2 % 16 * 16 + v3 / 4] else none
    | _, _, _ => none
  | w :: x :: y :: z :: rest =>
    match b64val w, b64val x, b64val y, b64val z, b64decode rest with
    | some v1, some v2, some v3, some v4, some bs =>
      some ((v1 * 4 + v2 / 16) :: (v2 % 16 * 16 + v3 / 4) :: (v3 % 4 * 64 + v4) :: bs)
    | _, _, _, _, _ => none

/-- The byte values of the literal text matched before the capture group of
the Rust regex of decode_url ("ampersand u equals a1"). -/
def u1pat : List Nat := [38, 117, 61, 97, 49]

/-- One attempt of the decode_url regex at the head of the input: the literal
five-byte pattern followed by a nonempty greedy run of bytes other than the
ampersand (byte 38); the run is the capture group. -/
def tryCap : List Nat → Option (List Nat)
  | 38 :: 117 :: 61 :: 97 :: 49 :: rest =>
    let cap := rest.takeWhile (fun b => b != 38)
    if cap.isEmpty then none else some cap
  | _ => none

/-- Leftmost match of the decode_url regex: scan positions left to right and
return the first capture. -/
def findCap : List Nat → Option (List Nat)
  | [] => none
  | c :: rest =>
    match tryCap (c :: rest) with
    | some cap => some cap
    | none => findCap rest

/-- UTF-8 validity of a byte sequence, as checked by String from_utf8. -/
def utf8Valid : List Nat → Bool
  | [] => true
  | b :: rest =>
    if b < 128 then utf8Valid rest
    else if 194 ≤ b ∧ b ≤ 223 then
      match rest with
      | b1 :: rest2 => (128 ≤ b1 && b1 ≤ 191) && utf8Valid rest2
      | [] => false
    else if b = 224 then
      match rest with
      | b1 :: b2 :: rest2 =>
        (160 ≤ b1 && b1 ≤ 191) && (128 ≤ b2 && b2 ≤ 191) && utf8Valid rest2
      | _ => false
    else if b = 237 then
      match rest with
      | b1 :: b2 :: rest2 =>
        (128 ≤ b1 && b1 ≤ 159) && (128 ≤ b2 && b2 ≤ 191) && utf8Valid rest2
      | _ => false
    else if (225 ≤ b ∧ b ≤ 236) ∨ (238 ≤ b ∧ b ≤ 239) then
      match rest with
      | b1 :: b2 :: rest2 =>
        (128 ≤ b1 && b1 ≤ 191) && (128 ≤ b2 && b2 ≤ 191) && utf8Valid rest2
      | _ => false
    else if b = 240 then
      match rest with
      | b1 :: b2 :: b3 :: rest2 =>
        (144 ≤ b1 && b1 ≤ 191) && (128 ≤ b2 && b2 ≤ 191) && (128 ≤ b3 && b3 ≤ 191)
          && utf8Valid rest2
      | _ => false
    else if 241 ≤ b ∧ b ≤ 243 then
      match rest with
      | b1 :: b2 :: b3 :: rest2 =>
        (128 ≤ b1 && b1 ≤ 191) && (128 ≤ b2 && b2 ≤ 191) && (128 ≤ b3 && b3 ≤ 191)
          && utf8Valid rest2
      | _ => false
    else if b = 244 then
      match rest with
      | b1 :: b2 :: b3 :: rest2 =>
        (128 ≤ b1 && b1 ≤ 143) && (128 ≤ b2 && b2 ≤ 191) && (128 ≤ b3 && b3 ≤ 191)
          && utf8Valid rest2
      | _ => false
    else false

/-- Byte-level model of decode_url of bing.rs: find the first regex capture
after the click-tracking marker, base64-decode it with the standard unpadded
alphabet, keep the result only if it is valid UTF-8; on any failure return
the input unchanged. -/
def decodeUrl (url : List Nat) : List Nat :=
  match findCap url with
  | none => url
  | some cap =>
    match b64decode cap with
    | none => url
    | some bytes => if utf8Valid bytes then bytes else url

/-- URL-safe base64 encoding (the alphabet the specification names):
the standard encoding with byte 43 replaced by 45 and byte 47 by 95. -/
def b64encodeUrlSafe (bs : List Nat) : List Nat :=
  (b64encode bs).map (fun c => if c = 43 then 45 else if c = 47 then 95 else c)

/-- Reading back an emitted base64 symbol recovers the 6-bit value. -/
theorem b64val_b64char : ∀ v : Nat, v < 64 → b64val (b64char v) = some v := by decide

/-- No symbol of the standard base64 alphabet is the ampersand byte. -/
theorem b64char_ne_amp (v : Nat) : b64char v ≠ 38 := by
  simp only [b64char]
  split
  · omega
  · split
    · omega
    · split
      · omega
      · split
        · omega
        · omega

/-- Every byte of an encoded payload is a base64 symbol, hence not the
ampersand byte. -/
theorem b64encode_no_amp : ∀ bs : List Nat, ∀ x ∈ b64encode bs, x ≠ 38
  | [] => by simp [b64encode]
  | [a] => by
    simp only [b64encode, List.mem_cons, List.not_mem_nil, or_false]
    rintro x (rfl | rfl) <;> exact b64char_ne_amp _
  | [a, b] => by
    simp only [b64encode, List.mem_cons, List.not_mem_nil, or_false]
    rintro x (rfl | rfl | rfl) <;> exact b64char_ne_amp _
  | a :: b :: c :: rest => by
    intro x hx
    simp only [b64encode, List.mem_cons] at hx
    rcases hx with rfl | rfl | rfl | rfl | hx
    · exact b64char_ne_amp _
    · exact b64char_ne_amp _
    · exact b64char_ne_amp _
    · exact b64char_ne_amp _
    · exact b64encode_no_amp rest x hx

/-- Encoding a nonempty byte list yields a nonempty symbol list. -/
theorem b64encode_ne_nil : ∀ bs : List Nat, bs ≠ [] → b64encode bs ≠ []
  | [], h => absurd rfl h
  | [_], _ => by simp [b64encode]
  | [_, _], _ => by simp [b64encode]
  | _ :: _ :: _ :: _, _ => by simp [b64encode]

/-- Decoding inverts encoding on byte inputs (round trip of the unpadded
standard-alphabet base64 pair). -/
theorem b64decode_encode : ∀ bs : List Nat, (∀ b ∈ bs, b < 256) →
    b64decode (b64encode bs) = some bs
  | [], _ => rfl
  | [a], h => by
    have ha : a < 256 := h a (by simp)
    have e1 : b64val (b64char (a / 4)) = some (a / 4) := b64val_b64char _ (by omega)
    have e2 : b64val (b64char (a % 4 * 16)) = some (a % 4 * 16) :=
      b64val_b64char _ (by omega)
    simp only [b64encode, b64decode, e1, e2]
    rw [if_pos (by omega)]
    have : a / 4 * 4 + a % 4 * 16 / 16 = a := by omega
    rw [this]
  | [a, b], h => by
    have ha : a < 256 := h a (by simp)
    have hb : b < 256 := h b (by simp)
    have e1 : b64val (b64char (a / 4)) = some (a / 4) := b64val_b64char _ (by omega)
    have e2 : b64val (b64char (a % 4 * 16 + b / 16)) = some (a % 4 * 16 + b / 16) :=
      b64val_b64char _ (by omega)
    have e3 : b64val (b64char (b % 16 * 4)) = some (b % 16 * 4) :=
      b64val_b64char _ (by omega)
    simp only [b64encode, b64decode, e1, e2, e3]
    rw [if_pos (by omega)]
    have h1 : a / 4 * 4 + (a % 4 * 16 + b / 16) / 16 = a := by omega
    have h2 : (a % 4 * 16 + b / 16) % 16 * 16 + b % 16 * 4 / 4 = b := by omega
    rw [h1, h2]
  | a :: b :: c :: rest, h => by
    have ha : a < 256 := h a (by simp)
    have hb : b < 256 := h b (by simp)
    have hc : c < 256 := h c (by simp)
    have e1 : b64val (b64char (a / 4)) = some (a / 4) := b64val_b64char _ (by omega)
    have e2 : b64val (b64char (a % 4 * 16 + b / 16)) = some (a % 4 * 16 + b / 16) :=
      b64val_b64char _ (by omega)
    have e3 : b64val (b64char (b % 16 * 4 + c / 64)) = some (b % 16 * 4 + c / 64) :=
      b64val_b64char _ (by omega)
    have e4 : b64val (b64char (c % 64)) = some (c % 64) := b64val_b64char _ (by omega)
    have ih := b64decode_encode rest (fun x hx => h x (by simp [hx]))
    simp only [b64encode, b64decode, e1, e2, e3, e4, ih]
    have h1 : a / 4 * 4 + (a % 4 * 16 + b / 16) / 16 = a := by omega
    have h2 : (a % 4 * 16 + b / 16) % 16 * 16 + (b % 16 * 4 + c / 64) / 4 = b := by omega
    have h3 : (b % 16 * 4 + c / 64) % 4 * 64 + c % 64 = c := by omega
    rw [h1, h2, h3]

/-- If the regex fails on a list, appending the pattern and more text after
it cannot create a match that begins strictly inside the original list. -/
theorem tryCap_ext_none (c : Nat) (pr cap2 : List Nat)
    (h : tryCap (c :: pr) = none) :
    tryCap (c :: (pr ++ u1pat ++ cap2)) = none := by
  rw [tryCap.eq_def]
  split
  next rest heq =>
    rcases pr with _ | ⟨a, _ | ⟨b, _ | ⟨d, _ | ⟨e, pr4⟩⟩⟩⟩
    · simp [u1pat] at heq
    · simp [u1pat] at heq
    · simp [u1pat] at heq
    · simp [u1pat] at heq
    · simp only [u1pat, List.cons_append, List.append_assoc, List.nil_append,
        List.cons.injEq] at heq
      obtain ⟨rfl, rfl, rfl, rfl, rfl, hrest⟩ := heq
      simp only [tryCap] at h
      by_cases hemp : (pr4.takeWhile (fun b => b != 38)).isEmpty
      · have htw : pr4.takeWhile (fun b => b != 38) = [] := by
          simpa [List.isEmpty_iff] using hemp
        have hext : ((pr4 ++ (38 :: 117 :: 61 :: 97 :: 49 :: cap2)).takeWhile
            (fun b => b != 38)) = [] := by
          rcases pr4 with _ | ⟨f, pr5⟩
          · simp [List.takeWhile_cons]
          · rw [List.takeWhile_cons] at htw
            rcases hf : (f != 38) with _ | _
            · simp [List.cons_append, List.takeWhile_cons, hf]
            · rw [hf] at htw; simp at htw
        rw [← hrest]
        simp [hext]
      · rw [if_neg hemp] at h
        exact absurd h (by simp)
  next => rfl

/-- Scanning past a match-free part reaches the planted pattern:
the decode_url regex captures exactly the planted payload. -/
theorem findCap_append (cap : List Nat) (hne : cap ≠ [])
    (hamp : ∀ b ∈ cap, b ≠ 38) :
    ∀ pre : List Nat, findCap pre = none →
      findCap (pre ++ u1pat ++ cap) = some cap := by
  intro pre
  induction pre with
  | nil =>
    intro _
    have htw : cap.takeWhile (fun b => b != 38) = cap :=
      List.takeWhile_eq_self_iff.mpr (fun x hx => by simp [hamp x hx])
    have hie : cap.isEmpty = false := by
      rcases cap with _ | _
      · exact absurd rfl hne
      · rfl
    simp [u1pat, findCap, tryCap, htw, hie]
  | cons c pr ih =>
    intro h
    have hsplit : tryCap (c :: pr) = none ∧ findCap pr = none := by
      cases htc : tryCap (c :: pr) with
      | some cp => rw [findCap, htc] at h; exact absurd h (by simp)
      | none => rw [findCap, htc] at h; exact ⟨rfl, h⟩
    have hext := tryCap_ext_none c pr cap hsplit.1
    show findCap (c :: (pr ++ u1pat ++ cap)) = some cap
    simp only [findCap]
    rw [hext]
    exact ih hsplit.2

/-- Claim C1 counterexample: the payload alphabet is the plain standard
base64 alphabet, not the URL-safe variant the claim names.  The bytes 62,62,63
form the UTF-8 string of two greater-than signs and a question mark; its
URL-safe unpadded encoding is the four symbols P j 4 underscore, and decode_url
on a link carrying that payload returns the link unchanged instead of the
encoded string, refuting the round-trip as claimed. -/
theorem c1_counterexample :
    b64encodeUrlSafe [62, 62, 63] = asciiBytes "Pj4_" ∧
    utf8Valid [62, 62, 63] = true ∧
    decodeUrl (asciiBytes "https://www.bing.com/ck/a?" ++ u1pat ++
        b64encodeUrlSafe [62, 62, 63]) =
      asciiBytes "https://www.bing.com/ck/a?" ++ u1pat ++ b64encodeUrlSafe [62, 62, 63] ∧
    asciiBytes "https://www.bing.com/ck/a?" ++ u1pat ++ b64encodeUrlSafe [62, 62, 63] ≠
      [62, 62, 63] := by
  refine ⟨by decide, by decide, by decide, by decide⟩

/-- Claim C1 (amended): for any link of the form prefix-pattern-payload where
the payload is the PLAIN STANDARD unpadded base64 encoding of a nonempty
UTF-8 byte string and the earlier part of the link has no regex match of its
own, decoding yields the encoded string; for any link on which the regex
finds no capture, decoding returns the input unchanged; and for any malformed
base64 payload or non-UTF-8 decoded bytes, decoding returns the input
unchanged - decode_url is total. -/
theorem c1_theorem :
    (∀ pre payload : List Nat, findCap pre = none → (∀ b ∈ payload, b < 256) →
      utf8Valid payload = true → payload ≠ [] →
      decodeUrl (pre ++ u1pat ++ b64encode payload) = payload) ∧
    (∀ url : List Nat, findCap url = none → decodeUrl url = url) ∧
    (∀ url cap : List Nat, findCap url = some cap → b64decode cap = none →
      decodeUrl url = url) ∧
    (∀ url cap bs : List Nat, findCap url = some cap → b64decode cap = some bs →
      utf8Valid bs = false → decodeUrl url = url) := by
  refine ⟨?_, ?_, ?_, ?_⟩
  · intro pre payload h1 h2 h3 h4
    have hf : findCap (pre ++ u1pat ++ b64encode payload) = some (b64encode payload) :=
      findCap_append _ (b64encode_ne_nil payload h4) (b64encode_no_amp payload) pre h1
    rw [List.append_assoc] at hf
    simp [decodeUrl, hf, b64decode_encode payload h2, h3]
  · intro url h
    simp [decodeUrl, h]
  · intro url cap h1 h2
    simp [decodeUrl, h1, h2]
  · intro url cap bs h1 h2 h3
    simp [decodeUrl, h1, h2, h3]

/-- Claim C1 witness: concrete instances of all four parts of the amended
round-trip statement, including the documented example payload decoding to
https example com. -/
theorem c1_witness :
    (decodeUrl (asciiBytes "https://www.bing.com/ck/a?" ++ u1pat ++
        b64encode (asciiBytes "https://example.com")) = asciiBytes "https://example.com") ∧
    (decodeUrl (asciiBytes "https://duckduckgo.com/?q=x") =
      asciiBytes "https://duckduckgo.com/?q=x") ∧
    (decodeUrl (asciiBytes "a&u=a1!") = asciiBytes "a&u=a1!") ∧
    (decodeUrl (asciiBytes "a&u=a1wA") = asciiBytes "a&u=a1wA") :=
  ⟨c1_theorem.1 (asciiBytes "https://www.bing.com/ck/a?") (asciiBytes "https://example.com")
      (by decide) (by decide) (by decide) (by decide),
   c1_theorem.2.1 (asciiBytes "https://duckduckgo.com/?q=x") (by decide),
   c1_theorem.2.2.1 (asciiBytes "a&u=a1!") [33] (by decide) (by decide),
   c1_theorem.2.2.2 (asciiBytes "a&u=a1wA") [119, 65] [192] (by decide) (by decide)
      (by decide)⟩

/-! Character-level model of the description-cleanup regex of bing.rs,
a lazy pattern: literal span-opening text, a lazy run of non-newline
characters up to a closing angle bracket, a lazy run of non-newline
characters, then either the closing span tag followed by the
non-breaking-space and middot text, or the closing span tag alone (the
longer alternative is tried first).  replace_all removes every
non-overlapping leftmost match, scanning the original text. -/

/-- The characters of the literal span-opening text of the regex. -/
def spanLit : List Char := ['<', 's', 'p', 'a', 'n']

/-- The characters of the longer closing alternative of the regex
(closing span tag, entity text of the non-breaking space, then the two
bytes of the middot as they appear in the source literal). -/
def spanEndLong : List Char :=
  ['<', '/', 's', 'p', 'a', 'n', '>', '&', 'n', 'b', 's', 'p', ';', 'Â', '·']

/-- The characters of the shorter closing alternative (closing span tag). -/
def spanEndShort : List Char := ['<', '/', 's', 'p', 'a', 'n', '>']

/-- Lazy tail of the regex: a minimal run of non-newline characters followed
by one of the two closing alternatives, longer alternative first.  Returns
the number of characters consumed. -/
def matchTail : List Char → Option Nat
  | [] => none
  | c :: rest =>
    if spanEndLong.isPrefixOf (c :: rest) then some 15
    else if spanEndShort.isPrefixOf (c :: rest) then some 7
    else if c = '\n' then none
    else (matchTail rest).map (· + 1)

/-- Lazy middle of the regex after the span-opening literal: a minimal run of
non-newline characters up to a closing angle bracket such that the tail also
matches, with backtracking past brackets whose tail fails. -/
def matchRest : List Char → Option Nat
  | [] => none
  | c :: rest =>
    if c = '\n' then none
    else if c = '>' then
      match matchTail rest with
      | some t => some (t + 1)
      | none => (matchRest rest).map (· + 1)
    else (matchRest rest).map (· + 1)

/-- Length of the regex match starting exactly at the head of the input. -/
def matchAt (cs : List Char) : Option Nat :=
  if spanLit.isPrefixOf cs then (matchRest (cs.drop 5)).map (· + 5) else none

/-- Fueled scan of replace_all with the empty replacement: at each position
remove a leftmost match and continue after it, otherwise keep the character.
The fuel is the length of the list at the top call, which always suffices
because every step consumes at least one character. -/
def cleanAux : Nat → List Char → List Char
  | _, [] => []
  | 0, cs => cs
  | fuel + 1, c :: rest =>
    match matchAt (c :: rest) with
    | some len => cleanAux fuel ((c :: rest).drop len)
    | none => c :: cleanAux fuel rest

/-- replace_all of the description-cleanup regex with the empty string. -/
def cleanDesc (cs : List Char) : List Char := cleanAux cs.length cs

/-- Whether the cleanup regex matches anywhere in the text. -/
def hasMatch : List Char → Bool
  | [] => false
  | c :: rest => (matchAt (c :: rest)).isSome || hasMatch rest

/-- String-level wrapper of the description cleanup. -/
def cleanDescS (s : String) : String := String.mk (cleanDesc s.data)

/-- A text without any match of the cleanup regex is left unchanged by the
scan, for any sufficient fuel. -/
theorem cleanAux_no_match : ∀ (fuel : Nat) (cs : List Char), cs.length ≤ fuel →
    hasMatch cs = false → cleanAux fuel cs = cs
  | fuel, [], _, _ => by
    cases fuel with
    | zero => rfl
    | succ n => rfl
  | 0, _ :: _, hlen, _ => by simp at hlen
  | fuel + 1, c :: rest, hlen, hm => by
    rw [hasMatch] at hm
    have hma : matchAt (c :: rest) = none := by
      cases h : matchAt (c :: rest) with
      | some l => rw [h] at hm; simp at hm
      | none => rfl
    rw [cleanAux, hma]
    have hrest : hasMatch rest = false := by
      rw [hma] at hm
      simpa using hm
    rw [cleanAux_no_match fuel rest (by simpa using Nat.le_of_succ_le_succ hlen) hrest]

/-- A match starting at a position spans at least one character (in fact at
least the span-opening literal). -/
theorem matchAt_pos (cs : List Char) (len : Nat) (h : matchAt cs = some len) :
    1 ≤ len := by
  unfold matchAt at h
  split at h
  · rcases Option.map_eq_some'.mp h with ⟨r, _, h2⟩
    omega
  · exact Option.noConfusion h

/-- The scan never lengthens the text. -/
theorem cleanAux_length_le : ∀ (fuel : Nat) (cs : List Char),
    (cleanAux fuel cs).length ≤ cs.length
  | fuel, [] => by
    cases fuel with
    | zero => exact Nat.le_refl _
    | succ n => exact Nat.le_refl _
  | 0, _ :: _ => Nat.le_refl _
  | fuel + 1, c :: rest => by
    cases hm : matchAt (c :: rest) with
    | some len =>
      simp only [cleanAux, hm]
      have h1 := cleanAux_length_le fuel ((c :: rest).drop len)
      have h2 : ((c :: rest).drop len).length = (c :: rest).length - len := by simp
      omega
    | none =>
      simp only [cleanAux, hm, List.length_cons]
      have h1 := cleanAux_length_le fuel rest
      omega

/-- A text on which the cleanup regex still matches somewhere is strictly
shortened by the scan, for any sufficient fuel. -/
theorem cleanAux_length_lt : ∀ (fuel : Nat) (cs : List Char), cs.length ≤ fuel →
    hasMatch cs = true → (cleanAux fuel cs).length < cs.length
  | _, [], _, hm => by simp [hasMatch] at hm
  | 0, _ :: _, hlen, _ => by simp at hlen
  | fuel + 1, c :: rest, hlen, hm => by
    cases hmat : matchAt (c :: rest) with
    | some len =>
      have hpos : 1 ≤ len := matchAt_pos _ _ hmat
      simp only [cleanAux, hmat]
      have h1 := cleanAux_length_le fuel ((c :: rest).drop len)
      have h2 : ((c :: rest).drop len).length = (c :: rest).length - len := by simp
      have h3 : 0 < (c :: rest).length := by simp
      omega
    | none =>
      have hrest : hasMatch rest = true := by
        rw [hasMatch, hmat] at hm
        simpa using hm
      have ih := cleanAux_length_lt fuel rest (by simpa using Nat.le_of_succ_le_succ hlen)
        hrest
      simp only [cleanAux, hmat, List.length_cons]
      omega

/-- Claim C9 counterexample: the cleanup substitution is NOT idempotent.
Removing an inner match can splice the surrounding characters into a fresh
span fragment: one application leaves a new complete span that a second
application removes, so applying the rule to an already-cleaned string can
change it again. -/
theorem c9_counterexample :
    cleanDesc "<spa<span>y</span>n>x</span>".data = "<span>x</span>".data ∧
    cleanDesc (cleanDesc "<spa<span>y</span>n>x</span>".data) ≠
      cleanDesc "<spa<span>y</span>n>x</span>".data := by
  refine ⟨by decide, by decide⟩

/-- Claim C9 (amended): the cleanup substitution is idempotent EXACTLY on
the descriptions whose cleaned form has no further match of the rule: if the
cleaned form is match-free a second application changes nothing, and if a
match remains (the removal spliced a new span fragment together) a second
application strictly shortens the text, hence changes it. -/
theorem c9_theorem (s : List Char) :
    cleanDesc (cleanDesc s) = cleanDesc s ↔ hasMatch (cleanDesc s) = false := by
  constructor
  · intro heq
    by_contra hm
    have hm2 : hasMatch (cleanDesc s) = true := by simpa using hm
    have hlt : (cleanDesc (cleanDesc s)).length < (cleanDesc s).length :=
      cleanAux_length_lt (cleanDesc s).length (cleanDesc s) (Nat.le_refl _) hm2
    rw [heq] at hlt
    exact Nat.lt_irrefl _ hlt
  · exact fun h => cleanAux_no_match _ _ (Nat.le_refl _) h

/-- Claim C9 witness: both directions of the characterization at concrete
descriptions - a cleaned match-free description is a fixed point, and the
splicing description is not. -/
theorem c9_witness :
    (cleanDesc (cleanDesc "a<span>b</span>c".data) = cleanDesc "a<span>b</span>c".data) ∧
    ¬(cleanDesc (cleanDesc "<spa<span>y</span>n>x</span>".data) =
      cleanDesc "<spa<span>y</span>n>x</span>".data) :=
  ⟨( c9_theorem "a<span>b</span>c".data).mpr (by decide),
   fun h => by
    have := ( c9_theorem "<spa<span>y</span>n>x</span>".data).mp h
    exact absurd this (by decide)⟩

/-! The adapter layer.  The five results functions below are translated from
the engine source files; the Result Parser, the normalized-result record and
the error taxonomy live outside the provided sources and are modelled from
the specification. -/

/-- Character-level model of Rust str trim on a character list. -/
def trimChars (cs : List Char) : List Char :=
  ((cs.dropWhile Char.isWhitespace).reverse.dropWhile Char.isWhitespace).reverse

/-- String-level trim. -/
def trimS (s : String) : String := String.mk (trimChars s.data)

/-- Substring containment of a pattern in a text (Rust str contains). -/
def hasSub (pat : List Char) : List Char → Bool
  | [] => pat.isEmpty
  | c :: rest => pat.isPrefixOf (c :: rest) || hasSub pat rest

/-- String-level substring containment: pat occurs inside s. -/
def hasSubS (s pat : String) : Bool := hasSub pat.data s.data

/-- UTF-8 bytes of one character. -/
def utf8EncodeChar (c : Char) : List Nat :=
  let n := c.toNat
  if n < 128 then [n]
  else if n < 2048 then [192 + n / 64, 128 + n % 64]
  else if n < 65536 then [224 + n / 4096, 128 + n / 64 % 64, 128 + n % 64]
  else [240 + n / 262144, 128 + n / 4096 % 64, 128 + n / 64 % 64, 128 + n % 64]

/-- UTF-8 bytes of a string. -/
def strBytes (s : String) : List Nat := (s.data.map utf8EncodeChar).flatten

/-- Best-effort UTF-8 reading of a byte list back into characters (total;
the adapters only apply it to byte lists that passed the validity check or
that came from a string). -/
def utf8DecodeChars : List Nat → List Char
  | [] => []
  | b :: rest =>
    if b < 128 then Char.ofNat b :: utf8DecodeChars rest
    else if b < 224 then
      match rest with
      | b1 :: rest2 => Char.ofNat ((b - 192) * 64 + (b1 - 128)) :: utf8DecodeChars rest2
      | [] => []
    else if b < 240 then
      match rest with
      | b1 :: b2 :: rest2 =>
        Char.ofNat ((b - 224) * 4096 + (b1 - 128) * 64 + (b2 - 128)) ::
          utf8DecodeChars rest2
      | _ => []
    else
      match rest with
      | b1 :: b2 :: b3 :: rest2 =>
        Char.ofNat ((b - 240) * 262144 + (b1 - 128) * 4096 + (b2 - 128) * 64
          + (b3 - 128)) :: utf8DecodeChars rest2
      | _ => []

/-- String from UTF-8 bytes. -/
def bytesToStr (bs : List Nat) : String := String.mk (utf8DecodeChars bs)

/-- Modelled from the spec: a DOM node as the adapters consume it through
the HTML collaborator contract of section 6: inner HTML, named attributes
(first binding wins), and collected visible text. -/
structure Node where
  innerHtml : String
  attrs : List (String × String)
  textContent : String
deriving DecidableEq

/-- First attribute of the given name, if any. -/
def Node.attr (n : Node) (key : String) : Option String := n.attrs.lookup key

/-- Modelled from the spec: the EngineError taxonomy of section 7. -/
inductive EngineError where
  | ConfigurationError
  | RequestError
  | EmptyResultSet
  | UnexpectedError
deriving DecidableEq

/-- Modelled from the spec: the NormalizedResult record of section 3
(SearchResult of the aggregation models). -/
structure SearchResult where
  title : String
  url : String
  description : String
  engines : List String
deriving DecidableEq

/-- Modelled from the spec: the SearchResult constructor as the adapters
call it. -/
def SearchResult.new (title url description : String) (engines : List String) :
    SearchResult :=
  ⟨title, url, description, engines⟩

/-- Modelled from the spec (section 4.1): a parsed document as the Result
Parser sees it through the configured selectors: the nodes matched by the
no-results selector in document order, and for every node matched by the
result-item selector either the resolved triple of title, link and
description sub-nodes, or no value when one of the three sub-selectors
fails within that item. -/
structure Doc where
  noResults : List Node
  items : List (Option (Node × Node × Node))
deriving DecidableEq

/-- Modelled from the spec (section 4.1): detect_no_results, the sequence of
nodes matched by the no-results selector. -/
def parseForNoResults (doc : Doc) : List Node := doc.noResults

/-- Modelled from the spec (section 4.1): extract_results - every item whose
three sub-selectors matched is handed to the mapping closure in page order;
the closure may discard an item by returning no value. -/
def parseForResults (doc : Doc)
    (f : Node → Node → Node → Option SearchResult) : List SearchResult :=
  (doc.items.filterMap id).filterMap fun i => f i.1 i.2.1 i.2.2

/-- Per-item mapping closure of the DuckDuckGo adapter: unconditional, the
url is the trimmed inner HTML of the link node behind a forced scheme. -/
def ddgMap (title url desc : Node) : Option SearchResult :=
  some (SearchResult.new (trimS title.innerHtml)
    ("https://" ++ trimS url.innerHtml) (trimS desc.innerHtml) ["duckduckgo"])

/-- Per-item mapping closure of the Bing adapter: requires an href, applies
the click-tracking de-obfuscation, and the description cleanup regex on the
trimmed description. -/
def bingMap (title url desc : Node) : Option SearchResult :=
  (url.attr "href").map fun href =>
    let urlDecoded :=
      if href.startsWith "https://www.bing.com/ck/a?" then
        bytesToStr (decodeUrl (strBytes href))
      else href
    SearchResult.new (trimS title.innerHtml) urlDecoded
      (cleanDescS (trimS desc.innerHtml)) ["bing"]

/-- Per-item mapping closure of the Brave adapter: requires an href; the
title is the joined collected text of the title node. -/
def braveMap (title url desc : Node) : Option SearchResult :=
  (url.attr "href").map fun href =>
    SearchResult.new (trimS title.textContent) (trimS href)
      (trimS desc.innerHtml) ["brave"]

/-- Per-item mapping closure of the LibreX adapter: requires an href. -/
def librexMap (title url desc : Node) : Option SearchResult :=
  (url.attr "href").map fun href =>
    SearchResult.new (trimS title.innerHtml) href (trimS desc.innerHtml) ["librex"]

/-- Per-item mapping closure of the Startpage adapter: requires an href. -/
def startpageMap (title url desc : Node) : Option SearchResult :=
  (url.attr "href").map fun href =>
    SearchResult.new (trimS title.innerHtml) href (trimS desc.innerHtml) ["startpage"]

/-- The fixed phrase the Brave adapter looks for in a matched no-results
node. -/
def braveNoResultText : String := "Not many great matches came back for your search"

/-- Post-fetch part of results of bing.rs: only the FIRST matched no-results
node is inspected, and its class attribute is tested for the result-item
class name by substring containment. -/
def bingResults (doc : Doc) : Except EngineError (List SearchResult) :=
  match (parseForNoResults doc).head? with
  | some n =>
    if ((n.attr "class").map fun cl => hasSubS cl "b_algo").getD false then
      .error .EmptyResultSet
    else .ok (parseForResults doc bingMap)
  | none => .ok (parseForResults doc bingMap)

/-- Post-fetch part of results of brave.rs: only the FIRST matched
no-results node is inspected for the fixed phrase. -/
def braveResults (doc : Doc) : Except EngineError (List SearchResult) :=
  match (parseForNoResults doc).head? with
  | some n =>
    if hasSubS n.innerHtml braveNoResultText then .error .EmptyResultSet
    else .ok (parseForResults doc braveMap)
  | none => .ok (parseForResults doc braveMap)

/-- Post-fetch part of results of duckduckgo.rs: any no-results match at all
fails the call. -/
def ddgResults (doc : Doc) : Except EngineError (List SearchResult) :=
  if (parseForNoResults doc).head?.isSome then .error .EmptyResultSet
  else .ok (parseForResults doc ddgMap)

/-- Post-fetch part of results of librex.rs. -/
def librexResults (doc : Doc) : Except EngineError (List SearchResult) :=
  if (parseForNoResults doc).head?.isSome then .error .EmptyResultSet
  else .ok (parseForResults doc librexMap)

/-- Post-fetch part of results of startpage.rs. -/
def startpageResults (doc : Doc) : Except EngineError (List SearchResult) :=
  if (parseForNoResults doc).head?.isSome then .error .EmptyResultSet
  else .ok (parseForResults doc startpageMap)

/-- The five engine adapters. -/
inductive Engine where
  | bing
  | brave
  | duckduckgo
  | librex
  | startpage
deriving DecidableEq

/-- Dispatch of the post-fetch part of fetch_results. -/
def engineResults : Engine → Doc → Except EngineError (List SearchResult)
  | .bing => bingResults
  | .brave => braveResults
  | .duckduckgo => ddgResults
  | .librex => librexResults
  | .startpage => startpageResults

/-- The per-engine no-results predicate of the table of section 4.2, stated
independently of the adapters (for the refinement statements): Bing tests
the first matched node for the result-item class name, Brave tests the
first matched node for the fixed phrase, the other three fail on any match
at all. -/
def specNoResPred : Engine → Doc → Bool
  | .bing, doc =>
    match doc.noResults.head? with
    | some n => ((n.attr "class").map fun cl => hasSubS cl "b_algo").getD false
    | none => false
  | .brave, doc =>
    match doc.noResults.head? with
    | some n => hasSubS n.innerHtml braveNoResultText
    | none => false
  | _, doc => !doc.noResults.isEmpty

/-- Dispatch of the per-item mapping closures. -/
def engineMap : Engine → Node → Node → Node → Option SearchResult
  | .bing => bingMap
  | .brave => braveMap
  | .duckduckgo => ddgMap
  | .librex => librexMap
  | .startpage => startpageMap

/-- The extraction outcome the specification describes for the success case:
the complete item triples, in page order, through the per-item closure. -/
def specExtract (e : Engine) (doc : Doc) : List SearchResult :=
  (doc.items.filterMap id).filterMap fun i => engineMap e i.1 i.2.1 i.2.2

/-- Base URL of the upstream DuckDuckGo engine. -/
def ddgBaseUrl : String := "https://html.duckduckgo.com"

/-- Request URL of the DuckDuckGo adapter (duckduckgo.rs): page 0 leaves the
two offset parameters empty; the page arithmetic is u32 arithmetic, modelled
with its wrapping semantics. -/
def ddgUrl (query : String) (page : Nat) : String :=
  match page with
  | 0 => ddgBaseUrl ++ "/html/?q=" ++ query ++ "&s=&dc=&v=1&o=json&api=/d.js"
  | _ => ddgBaseUrl ++ "/html/?q=" ++ query ++ "&s=" ++ toString (page * 30 % 4294967296)
      ++ "&dc=" ++ toString ((page * 30 + 1) % 4294967296) ++ "&v=1&o=json&api=/d.js"

/-- Base URL of the upstream LibreX engine. -/
def librexBaseUrl : String := "https://search.ahwx.org"

/-- Request URL of the LibreX adapter (librex.rs), u32 wrapping semantics. -/
def librexUrl (query : String) (page : Nat) : String :=
  librexBaseUrl ++ "/search.php?q=" ++ query ++ "&p="
    ++ toString (page * 10 % 4294967296) ++ "&t=10"

/-- Safe-search level mapping of the LibreX adapter. -/
def librexSafeLevel (safe : Nat) : String :=
  match safe with
  | 0 => "off"
  | _ => "on"

/-- The preference settings list of the LibreX adapter, in source order. -/
def librexSettings (safe : Nat) : List (String × String) :=
  [("theme", "amoled"), ("disable_special", "on"), ("disable_frontends", "on"),
   ("language", "en"), ("number_of_results", "20"),
   ("safe_search", librexSafeLevel safe), ("save", "1")]

/-- The Cookie header value of the LibreX adapter: the key-value pairs
joined with comma and space behind the preferences key. -/
def librexCookie (safe : Nat) : String :=
  "preferences="
    ++ String.intercalate ", " ((librexSettings safe).map fun kv => kv.1 ++ "=" ++ kv.2)

/-- When the engine-specific no-results predicate holds, the adapter fails
with the empty-result-set kind, before any extraction. -/
theorem emptyOfPred (e : Engine) (doc : Doc) (h : specNoResPred e doc = true) :
    engineResults e doc = .error .EmptyResultSet := by
  cases e <;> rcases hnr : doc.noResults with _ | ⟨n, rest⟩ <;>
    simp_all [specNoResPred, engineResults, bingResults, braveResults, ddgResults,
      librexResults, startpageResults, parseForNoResults]

/-- When the engine-specific no-results predicate fails, the adapter succeeds
with the extraction outcome, in page order. -/
theorem okOfNotPred (e : Engine) (doc : Doc) (h : specNoResPred e doc = false) :
    engineResults e doc = .ok (specExtract e doc) := by
  cases e <;> rcases hnr : doc.noResults with _ | ⟨n, rest⟩ <;>
    simp_all [specNoResPred, engineResults, bingResults, braveResults, ddgResults,
      librexResults, startpageResults, parseForNoResults, specExtract, engineMap,
      parseForResults]

/-- A successful call always carries exactly the extraction outcome. -/
theorem engineResults_ok_inv (e : Engine) (doc : Doc) (rs : List SearchResult)
    (h : engineResults e doc = .ok rs) : rs = specExtract e doc := by
  cases hp : specNoResPred e doc with
  | false =>
    rw [okOfNotPred e doc hp] at h
    injection h with h2
    exact h2.symm
  | true =>
    rw [emptyOfPred e doc hp] at h
    exact Except.noConfusion h

/-- Claim C2 counterexample: a well-formed page with no no-results node and
no result-item node makes fetch_results succeed with the EMPTY sequence, so
success does not imply non-emptiness and the claimed dichotomy is not
exhaustive. -/
theorem c2_counterexample :
    engineResults .duckduckgo ⟨[], []⟩ = .ok ([] : List SearchResult) := rfl

/-- Claim C2 (amended): a successful fetch_results call returns the possibly
empty ordered sequence of normalized results in upstream page order; when
the engine-specific no-results predicate holds the call instead fails with
the EmptyResultSet kind; the two outcomes are mutually exclusive, but a
success with an empty sequence is possible when no items are extractable. -/
theorem c2_theorem (e : Engine) (doc : Doc) :
    (specNoResPred e doc = true → engineResults e doc = .error .EmptyResultSet) ∧
    (specNoResPred e doc = false → engineResults e doc = .ok (specExtract e doc)) :=
  ⟨emptyOfPred e doc, okOfNotPred e doc⟩

/-- Claim C2 witness: one failing and one succeeding concrete instance. -/
theorem c2_witness :
    engineResults .librex ⟨[⟨"no results", [], ""⟩], []⟩ = .error .EmptyResultSet ∧
    engineResults .brave
        ⟨[], [some (⟨"T", [], "T"⟩, ⟨"", [("href", "https://x.org")], ""⟩, ⟨"D", [], "D"⟩)]⟩ =
      .ok (specExtract .brave
        ⟨[], [some (⟨"T", [], "T"⟩, ⟨"", [("href", "https://x.org")], ""⟩, ⟨"D", [], "D"⟩)]⟩) :=
  ⟨(c2_theorem .librex ⟨[⟨"no results", [], ""⟩], []⟩).1 (by decide),
   (c2_theorem .brave
     ⟨[], [some (⟨"T", [], "T"⟩, ⟨"", [("href", "https://x.org")], ""⟩, ⟨"D", [], "D"⟩)]⟩).2
     (by decide)⟩

/-- Claim C3: whenever the engine-specific no-results predicate holds on the
document, fetch_results fails with EmptyResultSet - extraction never runs,
even when result-item nodes are present. -/
theorem c3_theorem (e : Engine) (doc : Doc) (h : specNoResPred e doc = true) :
    engineResults e doc = .error .EmptyResultSet :=
  emptyOfPred e doc h

/-- Claim C3 witness: a document carrying both a no-results node and a
complete result item still fails with EmptyResultSet. -/
theorem c3_witness :
    specNoResPred .duckduckgo
      ⟨[⟨"none", [], ""⟩], [some (⟨"T", [], ""⟩, ⟨"u.org", [], ""⟩, ⟨"D", [], ""⟩)]⟩ = true ∧
    engineResults .duckduckgo
      ⟨[⟨"none", [], ""⟩], [some (⟨"T", [], ""⟩, ⟨"u.org", [], ""⟩, ⟨"D", [], ""⟩)]⟩ =
      .error .EmptyResultSet :=
  ⟨by decide,
   c3_theorem .duckduckgo
     ⟨[⟨"none", [], ""⟩], [some (⟨"T", [], ""⟩, ⟨"u.org", [], ""⟩, ⟨"D", [], ""⟩)]⟩
     (by decide)⟩

/-- Claim C5: with no no-results match and no result-item match at all,
every adapter returns a successful empty list, not an error. -/
theorem c5_theorem (e : Engine) (doc : Doc) (h1 : doc.noResults = [])
    (h2 : doc.items = []) : engineResults e doc = .ok ([] : List SearchResult) := by
  obtain ⟨nr, it⟩ := doc
  simp only at h1 h2
  subst h1
  subst h2
  cases e <;> rfl

/-- Claim C5 witness. -/
theorem c5_witness : engineResults .startpage ⟨[], []⟩ = .ok ([] : List SearchResult) :=
  c5_theorem .startpage ⟨[], []⟩ rfl rfl

/-- Claim C8 counterexample: the Bing emptiness check inspects only the
FIRST matched no-results node.  A document whose first match lacks the
class and whose second match carries it succeeds, contradicting the claimed
quantification over all matched nodes; moreover the check is substring
containment on the class attribute value, not class-list membership. -/
theorem c8_counterexample :
    ((⟨[⟨"", [("class", "other")], ""⟩, ⟨"", [("class", "b_algo")], ""⟩], []⟩ :
        Doc).noResults.any
      fun n => ((n.attr "class").map fun cl => hasSubS cl "b_algo").getD false) = true ∧
    bingResults ⟨[⟨"", [("class", "other")], ""⟩, ⟨"", [("class", "b_algo")], ""⟩], []⟩ =
      .ok ([] : List SearchResult) ∧
    bingResults ⟨[⟨"", [("class", "xb_algoy")], ""⟩], []⟩ = .error .EmptyResultSet := by
  refine ⟨by decide, rfl, rfl⟩

/-- Claim C8 (amended): the Bing adapter fails with EmptyResultSet exactly
when the no-results selector matches at least one node and the FIRST such
node has a class attribute whose value contains the result-item class name
as a substring. -/
theorem c8_theorem (doc : Doc) :
    bingResults doc = .error .EmptyResultSet ↔ specNoResPred .bing doc = true := by
  rcases hnr : doc.noResults with _ | ⟨n, rest⟩
  · simp [bingResults, parseForNoResults, specNoResPred, hnr]
  · simp only [bingResults, parseForNoResults, specNoResPred, hnr, List.head?_cons]
    split <;> simp_all

/-- Claim C8 witness: a first matched node whose class attribute value
contains the result-item class name makes the adapter fail. -/
theorem c8_witness :
    bingResults ⟨[⟨"", [("class", "news b_algo wide")], ""⟩], []⟩ =
      .error .EmptyResultSet :=
  ( c8_theorem ⟨[⟨"", [("class", "news b_algo wide")], ""⟩], []⟩).mpr (by decide)

/-- Claim C4 counterexample: the DuckDuckGo adapter does NOT apply the
span-removal cleanup - the produced description keeps a span fragment that
the cleanup rule would have removed, so not every one of the five adapters
applies the pass. -/
theorem c4_counterexample :
    engineResults .duckduckgo
        ⟨[], [some (⟨"t", [], ""⟩, ⟨"u.org", [], ""⟩, ⟨"<span>a</span>x", [], ""⟩)]⟩ =
      .ok [SearchResult.new "t" "https://u.org" "<span>a</span>x" ["duckduckgo"]] ∧
    cleanDescS "<span>a</span>x" ≠ "<span>a</span>x" := by
  refine ⟨rfl, by decide⟩

/-- Claim C4 (amended): only the Bing adapter applies the span-removal
cleanup, and it applies the substitution to the already-trimmed description
inner HTML; the other four adapters construct the normalized result from
the trimmed description content unchanged. -/
theorem c4_theorem (e : Engine) (t u d : Node) (r : SearchResult)
    (h : engineMap e t u d = some r) :
    r.description =
      if e = .bing then cleanDescS (trimS d.innerHtml) else trimS d.innerHtml := by
  cases e <;>
    simp only [engineMap, bingMap, braveMap, ddgMap, librexMap, startpageMap] at h
  case bing =>
    rcases Option.map_eq_some'.mp h with ⟨href, _, h2⟩
    rw [← h2]
    simp [SearchResult.new]
  case brave =>
    rcases Option.map_eq_some'.mp h with ⟨href, _, h2⟩
    rw [← h2]
    simp [SearchResult.new]
  case duckduckgo =>
    injection h with h2
    rw [← h2]
    simp [SearchResult.new]
  case librex =>
    rcases Option.map_eq_some'.mp h with ⟨href, _, h2⟩
    rw [← h2]
    simp [SearchResult.new]
  case startpage =>
    rcases Option.map_eq_some'.mp h with ⟨href, _, h2⟩
    rw [← h2]
    simp [SearchResult.new]

/-- Claim C4 witness: the Bing closure strips the date-style span fragment
from a concrete description. -/
theorem c4_witness :
    (SearchResult.new "t" "https://y.org" "desc" ["bing"]).description =
      if Engine.bing = Engine.bing then
        cleanDescS (trimS (Node.mk " <span>d</span>&nbsp;Â·desc " [] "").innerHtml)
      else trimS (Node.mk " <span>d</span>&nbsp;Â·desc " [] "").innerHtml :=
  c4_theorem .bing ⟨"t", [], ""⟩ ⟨"", [("href", "https://y.org")], ""⟩
    ⟨" <span>d</span>&nbsp;Â·desc " , [], ""⟩
    (SearchResult.new "t" "https://y.org" "desc" ["bing"])
    (by set_option maxRecDepth 8000 in decide)

/-- Whenever the mapping function keeps every element, extraction preserves
the item count. -/
theorem length_filterMap_isSome {α β : Type} (f : α → Option β) :
    ∀ l : List α, (∀ a ∈ l, (f a).isSome = true) →
      (l.filterMap f).length = l.length
  | [], _ => rfl
  | a :: t, h => by
    have ha := h a (by simp)
    rcases hf : f a with _ | b
    · rw [hf] at ha
      simp at ha
    · simp [List.filterMap_cons, hf,
        length_filterMap_isSome f t (fun x hx => h x (by simp [hx]))]

/-- Claim C10: the DuckDuckGo per-item closure never discards a complete
item - every complete triple yields exactly one normalized result, so the
extraction preserves the item count; the other four adapters discard an item
whose link node lacks an href attribute. -/
theorem c10_theorem :
    (∀ t u d : Node, (ddgMap t u d).isSome = true) ∧
    (∀ doc : Doc, specNoResPred .duckduckgo doc = false →
      engineResults .duckduckgo doc = .ok (specExtract .duckduckgo doc) ∧
      (specExtract .duckduckgo doc).length = (doc.items.filterMap id).length) ∧
    (∀ t u d : Node, u.attr "href" = none →
      bingMap t u d = none ∧ braveMap t u d = none ∧ librexMap t u d = none ∧
      startpageMap t u d = none) := by
  refine ⟨fun t u d => rfl, ?_, ?_⟩
  · intro doc h
    refine ⟨okOfNotPred .duckduckgo doc h, ?_⟩
    exact length_filterMap_isSome _ _ (fun i _ => rfl)
  · intro t u d h
    simp [bingMap, braveMap, librexMap, startpageMap, h]

/-- Claim C10 witness: a concrete complete item without href is kept by the
DuckDuckGo closure, counted by its extraction, and dropped by the other four
adapters. -/
theorem c10_witness :
    (ddgMap ⟨"t", [], "t"⟩ ⟨"u.org", [], ""⟩ ⟨"d", [], ""⟩).isSome = true ∧
    (engineResults .duckduckgo ⟨[], [some (⟨"t", [], "t"⟩, ⟨"u.org", [], ""⟩, ⟨"d", [], ""⟩)]⟩ =
        .ok (specExtract .duckduckgo
          ⟨[], [some (⟨"t", [], "t"⟩, ⟨"u.org", [], ""⟩, ⟨"d", [], ""⟩)]⟩) ∧
      (specExtract .duckduckgo
          ⟨[], [some (⟨"t", [], "t"⟩, ⟨"u.org", [], ""⟩, ⟨"d", [], ""⟩)]⟩).length =
        ((⟨[], [some (⟨"t", [], "t"⟩, ⟨"u.org", [], ""⟩, ⟨"d", [], ""⟩)]⟩ :
            Doc).items.filterMap id).length) ∧
    (bingMap ⟨"t", [], "t"⟩ ⟨"u.org", [], ""⟩ ⟨"d", [], ""⟩ = none ∧
      braveMap ⟨"t", [], "t"⟩ ⟨"u.org", [], ""⟩ ⟨"d", [], ""⟩ = none ∧
      librexMap ⟨"t", [], "t"⟩ ⟨"u.org", [], ""⟩ ⟨"d", [], ""⟩ = none ∧
      startpageMap ⟨"t", [], "t"⟩ ⟨"u.org", [], ""⟩ ⟨"d", [], ""⟩ = none) :=
  ⟨c10_theorem.1 ⟨"t", [], "t"⟩ ⟨"u.org", [], ""⟩ ⟨"d", [], ""⟩,
   c10_theorem.2.1 ⟨[], [some (⟨"t", [], "t"⟩, ⟨"u.org", [], ""⟩, ⟨"d", [], ""⟩)]⟩ (by decide),
   c10_theorem.2.2 ⟨"t", [], "t"⟩ ⟨"u.org", [], ""⟩ ⟨"d", [], ""⟩ (by decide)⟩

/-- Claim C6 counterexample: the offset parameters are computed in u32
arithmetic.  At the representable page number two to the thirty-first the
product wraps to zero, so the URL carries s equal to zero and dc equal to
one instead of thirty times the page number. -/
theorem c6_counterexample :
    ddgUrl "rust" 2147483648 =
      "https://html.duckduckgo.com/html/?q=rust&s=0&dc=1&v=1&o=json&api=/d.js" ∧
    hasSubS (ddgUrl "rust" 2147483648) ("&s=" ++ toString (2147483648 * 30)) = false := by
  refine ⟨by decide, by decide⟩

/-- Claim C6 (amended): for page zero the DuckDuckGo URL carries the query
with empty offset parameters exactly as claimed; for a nonzero page the two
offset-style parameters are thirty times the page and thirty times the page
plus one, both reduced modulo two to the thirty-second (u32 wrapping); and
every extracted record url is the trimmed link inner HTML behind the forced
https scheme. -/
theorem c6_theorem (query : String) (page : Nat) :
    ddgUrl query 0 = ddgBaseUrl ++ "/html/?q=" ++ query ++ "&s=&dc=&v=1&o=json&api=/d.js" ∧
    (page ≠ 0 → ddgUrl query page = ddgBaseUrl ++ "/html/?q=" ++ query ++ "&s="
      ++ toString (page * 30 % 4294967296) ++ "&dc="
      ++ toString ((page * 30 + 1) % 4294967296) ++ "&v=1&o=json&api=/d.js") ∧
    (∀ t u d : Node, ∀ r : SearchResult, ddgMap t u d = some r →
      r.url = "https://" ++ trimS u.innerHtml) := by
  refine ⟨rfl, ?_, ?_⟩
  · intro hp
    cases page with
    | zero => exact absurd rfl hp
    | succ n => rfl
  · intro t u d r h
    injection h with h2
    rw [← h2]
    rfl

/-- Claim C6 witness: page zero and page two URLs, and the end-to-end url of
an item whose link inner HTML is a bare domain path. -/
theorem c6_witness :
    ddgUrl "rust" 0 = "https://html.duckduckgo.com/html/?q=rust&s=&dc=&v=1&o=json&api=/d.js" ∧
    ddgUrl "rust" 2 = "https://html.duckduckgo.com/html/?q=rust&s=60&dc=61&v=1&o=json&api=/d.js" ∧
    (SearchResult.new "t" "https://example.com/x" "d" ["duckduckgo"]).url =
      "https://" ++ trimS (Node.mk " example.com/x " [] "").innerHtml :=
  ⟨( c6_theorem "rust" 0).1,
   ( c6_theorem "rust" 2).2.1 (by decide),
   ( c6_theorem "rust" 2).2.2 ⟨"t", [], ""⟩ ⟨" example.com/x ", [], ""⟩ ⟨"d", [], ""⟩
     (SearchResult.new "t" "https://example.com/x" "d" ["duckduckgo"]) (by decide)⟩

/-- Claim C7 counterexample: the LibreX preference blob holds SEVEN fields,
not eight, and the pagination parameter is u32 arithmetic, wrapping to zero
at the representable page number two to the thirty-first. -/
theorem c7_counterexample :
    (librexSettings 0).length = 7 ∧ (librexSettings 0).length ≠ 8 ∧
    librexUrl "a" 2147483648 = "https://search.ahwx.org/search.php?q=a&p=0&t=10" ∧
    hasSubS (librexUrl "a" 2147483648) ("&p=" ++ toString (2147483648 * 10)) = false := by
  refine ⟨rfl, by decide, by decide, by decide⟩

/-- Claim C7 (amended): the LibreX pagination parameter is ten times the
zero-based page number reduced modulo two to the thirty-second (u32
wrapping), and the Cookie header is the comma-joined preference blob of
SEVEN preference fields whose safe-search field is off at level zero and on
at every other level. -/
theorem c7_theorem (query : String) (page safe : Nat) :
    librexUrl query page = librexBaseUrl ++ "/search.php?q=" ++ query ++ "&p="
      ++ toString (page * 10 % 4294967296) ++ "&t=10" ∧
    (librexSettings safe).length = 7 ∧
    librexCookie safe =
      "preferences=theme=amoled, disable_special=on, disable_frontends=on, language=en, number_of_results=20, safe_search="
        ++ librexSafeLevel safe ++ ", save=1" ∧
    librexSafeLevel 0 = "off" ∧ (safe ≠ 0 → librexSafeLevel safe = "on") := by
  refine ⟨rfl, rfl, ?_, rfl, ?_⟩
  · cases safe with
    | zero => rfl
    | succ n => rfl
  · intro h
    cases safe with
    | zero => exact absurd rfl h
    | succ n => rfl

/-- Claim C7 witness: concrete URL at page three, the full cookie at level
zero, and the on mapping at level two. -/
theorem c7_witness :
    librexUrl "q" 3 = "https://search.ahwx.org/search.php?q=q&p=30&t=10" ∧
    librexCookie 0 =
      "preferences=theme=amoled, disable_special=on, disable_frontends=on, language=en, number_of_results=20, safe_search=off, save=1" ∧
    librexSafeLevel 2 = "on" :=
  ⟨( c7_theorem "q" 3 0).1, ( c7_theorem "q" 3 0).2.2.1, ( c7_theorem "q" 3 2).2.2.2.2 (by decide)⟩

end Websurfx
